import Mathlib

/-!
Verification of `plat/arm/common/arm_dyn_cfg_helpers.c`.

The module under verification exposes four functions over a device-tree
configuration blob (TB_FW_CONFIG):

* `arm_dyn_tb_fw_cfg_init`    — validate the blob header and locate the
  node compatible with `"arm,tb_fw"` (the Blob Validator);
* `arm_dyn_get_disable_auth`  — read and domain-check the `disable_auth`
  cell (the Disable-Auth Accessor);
* `arm_get_dtb_mbedtls_heap_info` — read the Mbed TLS heap descriptor
  (address, 2 cells; size, 1 cell) from the root node (the Heap Reader);
* `arm_set_dtb_mbedtls_heap_info` — write that descriptor in place
  (the Heap Writer).

The underlying device-tree manipulation library (`fdt_check_header`,
`fdt_node_offset_by_compatible`, `fdtw_read_cells`,
`fdtw_write_inplace_cells`) is not part of the sources under verification;
it is modelled from the specification's collaborator contract: a blob is a
header flag plus a list of nodes, a node is a list of compatibility tags
plus named properties, a property is a list of big-endian 32-bit cells, and
reads/writes are strictly in place (a write can only overwrite an existing
property of exactly the requested cell width, never resize the blob).

Out-parameters of the C functions are threaded explicitly: each embedded
function takes the entry value of every out-parameter and returns its value
on exit, so that claims about out-parameters being overwritten (or not) on
failure paths are statable. Debug assertions (`assert(...)` in the C) are
modelled by an explicit `assertViolation` outcome.
-/

set_option maxHeartbeats 1000000

/-- A scalar property: a name and a fixed-width array of 32-bit cells
(most-significant cell first). Cell values are `Nat`s understood modulo
`2 ^ 32`. -/
structure FdtProp where
  name : String
  cells : List Nat
  deriving DecidableEq, Repr

/-- A node of the configuration tree: its compatibility tags and its
properties. -/
structure FdtNode where
  compatible : List String
  props : List FdtProp
  deriving DecidableEq, Repr

/-- The configuration blob: a structural-header validity flag plus the node
list. A node handle is an index into `nodes` (cast to `Int`, since the C
API uses negative values for errors). -/
structure Fdt where
  headerOk : Bool
  nodes : List FdtNode
  deriving DecidableEq, Repr

/-- Big-endian assembly of a list of 32-bit cells into one scalar value. -/
def decodeCells (cs : List Nat) : Nat :=
  cs.foldl (fun acc c => acc * 2 ^ 32 + c) 0

/-- Big-endian encoding of a scalar value into `n` 32-bit cells
(most-significant cell first); the value is truncated to `32 * n` bits. -/
def encodeCells : Nat → Nat → List Nat
  | 0, _ => []
  | n + 1, v => encodeCells n (v / 2 ^ 32) ++ [v % 2 ^ 32]

/-- Look up a node of the blob by handle (an index into the node list);
negative or out-of-range handles resolve to nothing. -/
def getNode (b : Fdt) (node : Int) : Option FdtNode :=
  if 0 ≤ node then b.nodes.get? node.toNat else none

/-- Scan a property list for the first property with the given name (the
lookup performed by `fdt_getprop`). -/
def findProp : List FdtProp → String → Option FdtProp
  | [], _ => none
  | p :: ps, name => if p.name == name then some p else findProp ps name

/-- Replace the cells of the first property named `name`; every other
property (and the order and names of all properties) is untouched. -/
def setPropFirst : List FdtProp → String → List Nat → List FdtProp
  | [], _, _ => []
  | p :: ps, name, cs =>
    if p.name == name then { p with cells := cs } :: ps
    else p :: setPropFirst ps name cs

/-- Modelled from the spec: `check_header(blob) -> bool` of the device-tree
library (`fdt_check_header` is not among the sources under verification).
Returns 0 when the structural header is well formed and a negative error
code otherwise. -/
def fdt_check_header (b : Fdt) : Int :=
  if b.headerOk then 0 else -1

/-- Scan of the node list underlying `fdt_node_offset_by_compatible`:
return the first index strictly greater than `start` whose node carries the
tag, or -1 when none exists. -/
def findCompatFrom : List FdtNode → Nat → Int → String → Int
  | [], _, _, _ => -1
  | nd :: rest, idx, start, tag =>
    if decide (start < (idx : Int)) && nd.compatible.contains tag then (idx : Int)
    else findCompatFrom rest (idx + 1) start tag

/-- Modelled from the spec: `find_node_by_compatible(blob, tag)` of the
device-tree library (`fdt_node_offset_by_compatible` is not among the
sources under verification). Returns the handle of the first node after
`start` carrying the compatibility tag, or -1 (`NotFound`) when no such
node exists. -/
def fdt_node_offset_by_compatible (b : Fdt) (start : Int) (tag : String) : Int :=
  findCompatFrom b.nodes 0 start tag

/-- Modelled from the spec: `read_cells(blob, node, name, cell_count) ->
value | error` of the device-tree wrapper layer (`fdtw_read_cells` is not
among the sources under verification). Fails when the node or the property
is absent or the property's width differs from the requested cell count;
otherwise returns the big-endian value of the cells. -/
def fdtw_read_cells (b : Fdt) (node : Int) (name : String) (cells : Nat) :
    Option Nat :=
  match getNode b node with
  | none => none
  | some nd =>
    match findProp nd.props name with
    | none => none
    | some p => if p.cells.length = cells then some (decodeCells p.cells) else none

/-- Modelled from the spec: `write_cells_in_place(blob, node, name,
cell_count, value) -> ok | error` of the device-tree wrapper layer
(`fdtw_write_inplace_cells` is not among the sources under verification).
Strictly in place: it can only overwrite an existing property of exactly
the requested cell width; when the node or the property is absent or the
width differs, it fails and the blob is unchanged. It never resizes the
blob. -/
def fdtw_write_inplace_cells (b : Fdt) (node : Int) (name : String)
    (cells : Nat) (v : Nat) : Option Fdt :=
  match getNode b node with
  | none => none
  | some nd =>
    match findProp nd.props name with
    | none => none
    | some p =>
      if p.cells.length = cells then
        some { b with
          nodes := b.nodes.set node.toNat
            { nd with props := setPropFirst nd.props name (encodeCells cells v) } }
      else none

/-- Outcome of a call whose debug assertions are modelled explicitly:
either an assertion fired (`assertViolation`, the debug-build abort), or
the call returned with a status and the final value of the out-parameter. -/
inductive DbgResult where
  | assertViolation : DbgResult
  | result : Int → Nat → DbgResult
  deriving DecidableEq, Repr

/-- Translation of `arm_dyn_tb_fw_cfg_init` (the Blob Validator). The
out-parameter `*node` is threaded: `node0` is its value on entry and the
second component of the result is its value on return (it is written only
by the node search, so a header failure leaves it at `node0`). The first
component is the returned status: 0 on success, -1 on error. -/
def arm_dyn_tb_fw_cfg_init (dtb : Fdt) (node0 : Int) : Int × Int :=
  if fdt_check_header dtb ≠ 0 then (-1, node0)
  else
    let n := fdt_node_offset_by_compatible dtb (-1) "arm,tb_fw"
    if n < 0 then (-1, n) else (0, n)

/-- Instrumented copy of `arm_dyn_tb_fw_cfg_init` whose second component
records whether the node search (`fdt_node_offset_by_compatible`) was
invoked during the call. -/
def arm_dyn_tb_fw_cfg_init_instr (dtb : Fdt) (node0 : Int) :
    (Int × Int) × Bool :=
  if fdt_check_header dtb ≠ 0 then ((-1, node0), false)
  else
    let n := fdt_node_offset_by_compatible dtb (-1) "arm,tb_fw"
    (if n < 0 then (-1, n) else (0, n), true)

/-- Translation of `arm_dyn_get_disable_auth` (the Disable-Auth Accessor).
The three debug assertions of the C body (non-null pointers are implicit in
the model; `fdt_check_header(dtb) == 0`; `node` equals a freshly computed
`fdt_node_offset_by_compatible(dtb, -1, "arm,tb_fw")`) are modelled as
`assertViolation` outcomes. `out0` is the entry value of the out-parameter
`*disable_auth`; the `result` constructor carries the returned status and
the exit value of `*disable_auth` (which `fdtw_read_cells` overwrites with
the stored cell before the domain check runs). -/
def arm_dyn_get_disable_auth (dtb : Fdt) (node : Int) (out0 : Nat) : DbgResult :=
  if fdt_check_header dtb ≠ 0 then DbgResult.assertViolation
  else if node ≠ fdt_node_offset_by_compatible dtb (-1) "arm,tb_fw" then
    DbgResult.assertViolation
  else
    match fdtw_read_cells dtb node "disable_auth" 1 with
    | none => DbgResult.result (-1) out0
    | some v =>
      if v ≠ 0 ∧ v ≠ 1 then DbgResult.result (-1) v else DbgResult.result 0 v

/-- Translation of `arm_get_dtb_mbedtls_heap_info` (the Heap Reader).
`addr0` and `size0` are the entry values of the out-parameters `*heap_addr`
and `*heap_size`; the result is the returned status together with their
exit values. The local `dtb_root` enters `arm_dyn_tb_fw_cfg_init`
uninitialised; 0 stands for its arbitrary entry value (it is never read on
the failure path). -/
def arm_get_dtb_mbedtls_heap_info (dtb : Fdt) (addr0 size0 : Nat) :
    Int × Nat × Nat :=
  let r := arm_dyn_tb_fw_cfg_init dtb 0
  if r.1 < 0 then (-1, addr0, size0)
  else
    match fdtw_read_cells dtb r.2 "mbedtls_heap_addr" 2 with
    | none => (-1, addr0, size0)
    | some a =>
      match fdtw_read_cells dtb r.2 "mbedtls_heap_size" 1 with
      | none => (-1, a, size0)
      | some s => (0, a, s)

/-- Translation of `arm_set_dtb_mbedtls_heap_info` (the Heap Writer). The
blob is mutated in place by the C code; the model threads it explicitly and
returns the status paired with the final blob state. -/
def arm_set_dtb_mbedtls_heap_info (dtb : Fdt) (heap_addr heap_size : Nat) :
    Int × Fdt :=
  let r := arm_dyn_tb_fw_cfg_init dtb 0
  if r.1 < 0 then (-1, dtb)
  else
    match fdtw_write_inplace_cells dtb r.2 "mbedtls_heap_addr" 2 heap_addr with
    | none => (-1, dtb)
    | some dtb1 =>
      match fdtw_write_inplace_cells dtb1 r.2 "mbedtls_heap_size" 1 heap_size with
      | none => (-1, dtb1)
      | some dtb2 => (0, dtb2)

/-- The blob produced by a successful in-place write: node `r` has the
first property named `name` overwritten with the encoded value, everything
else is untouched. -/
def writeResult (b : Fdt) (r : Int) (nd : FdtNode) (name : String)
    (cells v : Nat) : Fdt :=
  { b with
    nodes := b.nodes.set r.toNat
      { nd with props := setPropFirst nd.props name (encodeCells cells v) } }

/-- An `"arm,tb_fw"`-compatible node carrying `disable_auth = 1` and the
two heap properties at their required widths. -/
def blobOkNode : FdtNode :=
  ⟨["arm,tb_fw"],
    [⟨"disable_auth", [1]⟩,
     ⟨"mbedtls_heap_addr", [0, 0]⟩,
     ⟨"mbedtls_heap_size", [0]⟩]⟩

/-- A blob with a valid header and the full expected schema. -/
def blobOk : Fdt := ⟨true, [blobOkNode]⟩

/-- A node carrying an out-of-domain `disable_auth = 5`. -/
def blobBadAuthNode : FdtNode := ⟨["arm,tb_fw"], [⟨"disable_auth", [5]⟩]⟩

/-- A header-valid blob whose `disable_auth` cell holds 5 ∉ {0, 1}. -/
def blobBadAuth : Fdt := ⟨true, [blobBadAuthNode]⟩

/-- A node with a heap-address slot but no heap-size slot. -/
def blobNoSizeNode : FdtNode :=
  ⟨["arm,tb_fw"], [⟨"mbedtls_heap_addr", [1, 2]⟩]⟩

/-- A header-valid blob whose schema lacks `mbedtls_heap_size`. -/
def blobNoSize : Fdt := ⟨true, [blobNoSizeNode]⟩

/-- The blob `blobNoSize` after the heap address 5 has been committed. -/
def blobNoSizeW : Fdt :=
  ⟨true, [⟨["arm,tb_fw"], [⟨"mbedtls_heap_addr", [0, 5]⟩]⟩]⟩

/-- A node lacking the heap-address slot. -/
def blobNoAddrNode : FdtNode := ⟨["arm,tb_fw"], [⟨"disable_auth", [0]⟩]⟩

/-- A header-valid blob whose schema lacks `mbedtls_heap_addr`. -/
def blobNoAddr : Fdt := ⟨true, [blobNoAddrNode]⟩

/-! Shared lemmas about the model. -/

theorem getNode_inv {b : Fdt} {r : Int} {nd : FdtNode} (h : getNode b r = some nd) :
    0 ≤ r ∧ b.nodes.get? r.toNat = some nd := by
  unfold getNode at h
  split at h
  · exact ⟨by assumption, h⟩
  · exact absurd h (by simp)

theorem getNode_set_self {b : Fdt} {r : Int} {nd : FdtNode} (nd' : FdtNode)
    (hg : getNode b r = some nd) :
    getNode { b with nodes := b.nodes.set r.toNat nd' } r = some nd' := by
  obtain ⟨hr, hget⟩ := getNode_inv hg
  have hlt : r.toNat < b.nodes.length := by
    rcases List.get?_eq_some.mp hget with ⟨h', _⟩
    exact h'
  unfold getNode
  simp only [hr, if_pos]
  exact List.get?_set_eq_of_lt _ hlt

theorem map_set_of_get? {α β : Type} (f : α → β) :
    ∀ (l : List α) (k : Nat) (a : α), (l.get? k).map f = some (f a) →
      (l.set k a).map f = l.map f
  | [], k, _, h => by simp at h
  | x :: xs, 0, a, h => by
      simp only [List.get?_cons_zero, Option.map_some', Option.some.injEq] at h
      simp [List.set, h]
  | x :: xs, k + 1, a, h => by
      simp only [List.get?_cons_succ] at h
      simp [List.set, map_set_of_get? f xs k a h]

theorem findCompatFrom_congr :
    ∀ (l₁ l₂ : List FdtNode), l₁.map FdtNode.compatible = l₂.map FdtNode.compatible →
      ∀ (idx : Nat) (start : Int) (tag : String),
        findCompatFrom l₁ idx start tag = findCompatFrom l₂ idx start tag
  | [], [], _, _, _, _ => rfl
  | [], _ :: _, h, _, _, _ => by simp at h
  | _ :: _, [], h, _, _, _ => by simp at h
  | n₁ :: l₁, n₂ :: l₂, h, idx, start, tag => by
      simp only [List.map_cons, List.cons.injEq] at h
      unfold findCompatFrom
      rw [h.1, findCompatFrom_congr l₁ l₂ h.2]

theorem findProp_setPropFirst_self :
    ∀ (ps : List FdtProp) (name : String) (cs : List Nat) (p : FdtProp),
      findProp ps name = some p →
      findProp (setPropFirst ps name cs) name = some { p with cells := cs }
  | [], _, _, _, h => by simp [findProp] at h
  | q :: ps, name, cs, p, h => by
      by_cases hq : (q.name == name) = true
      · rw [findProp, if_pos hq] at h
        injection h with h
        subst h
        rw [setPropFirst, if_pos hq, findProp, if_pos hq]
      · rw [findProp, if_neg hq] at h
        rw [setPropFirst, if_neg hq, findProp, if_neg hq]
        exact findProp_setPropFirst_self ps name cs p h

theorem findProp_setPropFirst_ne :
    ∀ (ps : List FdtProp) (name name' : String) (cs : List Nat),
      name' ≠ name →
      findProp (setPropFirst ps name cs) name' = findProp ps name'
  | [], _, _, _, _ => rfl
  | q :: ps, name, name', cs, h => by
      by_cases hq : (q.name == name) = true
      · have hqn : q.name = name := by simpa using hq
        have hne : ¬(q.name == name') = true := by
          simp only [beq_iff_eq, hqn]
          exact fun hh => h hh.symm
        rw [setPropFirst, if_pos hq, findProp, if_neg (by simpa using hne),
            findProp, if_neg (by simpa using hne)]
      · rw [setPropFirst, if_neg hq]
        by_cases hqn : (q.name == name') = true
        · rw [findProp, if_pos hqn, findProp, if_pos hqn]
        · rw [findProp, if_neg hqn, findProp, if_neg hqn]
          exact findProp_setPropFirst_ne ps name name' cs h

theorem setPropFirst_map_shape :
    ∀ (ps : List FdtProp) (name : String) (cs : List Nat) (p : FdtProp),
      findProp ps name = some p → cs.length = p.cells.length →
      (setPropFirst ps name cs).map (fun q => (q.name, q.cells.length)) =
        ps.map (fun q => (q.name, q.cells.length))
  | [], _, _, _, h, _ => by simp [findProp] at h
  | q :: ps, name, cs, p, h, hlen => by
      by_cases hq : (q.name == name) = true
      · rw [findProp, if_pos hq] at h
        injection h with h
        subst h
        simp [setPropFirst, hq, hlen]
      · rw [findProp, if_neg hq] at h
        rw [setPropFirst, if_neg hq, List.map_cons, List.map_cons,
            setPropFirst_map_shape ps name cs p h hlen]

theorem setPropFirst_filter :
    ∀ (ps : List FdtProp) (name : String) (cs : List Nat) (f : String → Bool),
      f name = false →
      (setPropFirst ps name cs).filter (fun q => f q.name) =
        ps.filter (fun q => f q.name)
  | [], _, _, _, _ => rfl
  | q :: ps, name, cs, f, h => by
      by_cases hq : (q.name == name) = true
      · have hqn : q.name = name := by simpa using hq
        simp [setPropFirst, hq, List.filter_cons, hqn, h]
      · rw [setPropFirst, if_neg hq, List.filter_cons, List.filter_cons,
            setPropFirst_filter ps name cs f h]

theorem encodeCells_length : ∀ (n v : Nat), (encodeCells n v).length = n
  | 0, _ => rfl
  | n + 1, v => by simp [encodeCells, encodeCells_length n]

theorem decodeCells_append (cs : List Nat) (c : Nat) :
    decodeCells (cs ++ [c]) = decodeCells cs * 2 ^ 32 + c := by
  unfold decodeCells
  rw [List.foldl_append]
  rfl

theorem decode_encode : ∀ (n v : Nat), v < 2 ^ (32 * n) →
    decodeCells (encodeCells n v) = v
  | 0, v, h => by
      have : v = 0 := by simpa using h
      simp [this, encodeCells, decodeCells]
  | n + 1, v, h => by
      have hdiv : v / 2 ^ 32 < 2 ^ (32 * n) := by
        rw [Nat.div_lt_iff_lt_mul (by positivity), ← pow_add]
        have : 32 * n + 32 = 32 * (n + 1) := by ring
        rw [this]
        exact h
      rw [encodeCells, decodeCells_append, decode_encode n (v / 2 ^ 32) hdiv]
      exact Nat.div_add_mod' v (2 ^ 32)

theorem read_eq_some {b : Fdt} {r : Int} {name : String} {cells : Nat}
    {nd : FdtNode} {p : FdtProp}
    (hg : getNode b r = some nd)
    (hf : findProp nd.props name = some p)
    (hl : p.cells.length = cells) :
    fdtw_read_cells b r name cells = some (decodeCells p.cells) := by
  simp [fdtw_read_cells, hg, hf, hl]

theorem write_eq_some {b : Fdt} {r : Int} {name : String} {cells : Nat} {v : Nat}
    {nd : FdtNode} {p : FdtProp}
    (hg : getNode b r = some nd)
    (hf : findProp nd.props name = some p)
    (hl : p.cells.length = cells) :
    fdtw_write_inplace_cells b r name cells v =
      some (writeResult b r nd name cells v) := by
  simp [fdtw_write_inplace_cells, writeResult, hg, hf, hl]

theorem write_inv {b b' : Fdt} {r : Int} {name : String} {cells : Nat} {v : Nat}
    (h : fdtw_write_inplace_cells b r name cells v = some b') :
    ∃ nd p, getNode b r = some nd ∧
      findProp nd.props name = some p ∧
      p.cells.length = cells ∧
      b' = writeResult b r nd name cells v := by
  unfold fdtw_write_inplace_cells at h
  unfold writeResult
  cases hg : getNode b r with
  | none => rw [hg] at h; exact absurd h (by simp)
  | some nd =>
    rw [hg] at h
    simp only at h
    cases hf : findProp nd.props name with
    | none => rw [hf] at h; exact absurd h (by simp)
    | some p =>
      rw [hf] at h
      simp only at h
      by_cases hl : p.cells.length = cells
      · rw [if_pos hl] at h
        injection h with h
        exact ⟨nd, p, rfl, hf, hl, h.symm⟩
      · rw [if_neg hl] at h
        exact absurd h (by simp)

theorem init_eq_ok {b : Fdt} {n0 r : Int} (h : arm_dyn_tb_fw_cfg_init b n0 = (0, r)) :
    fdt_check_header b = 0 ∧
      fdt_node_offset_by_compatible b (-1) "arm,tb_fw" = r ∧ 0 ≤ r := by
  unfold arm_dyn_tb_fw_cfg_init at h
  by_cases hh : fdt_check_header b ≠ 0
  · rw [if_pos hh] at h
    exact absurd (congrArg Prod.fst h) (by simp)
  · rw [if_neg hh] at h
    push_neg at hh
    by_cases hn : fdt_node_offset_by_compatible b (-1) "arm,tb_fw" < 0
    · rw [if_pos hn] at h
      exact absurd (congrArg Prod.fst h) (by simp)
    · rw [if_neg hn] at h
      have := congrArg Prod.snd h
      simp only at this
      exact ⟨hh, this, by omega⟩

theorem init_after_write {b b' : Fdt} {r : Int} {name : String} {cells v : Nat}
    (h : fdtw_write_inplace_cells b r name cells v = some b') (n0 : Int) :
    arm_dyn_tb_fw_cfg_init b' n0 = arm_dyn_tb_fw_cfg_init b n0 := by
  obtain ⟨nd, p, hg, hf, hl, rfl⟩ := write_inv h
  obtain ⟨hr, hget⟩ := getNode_inv hg
  have hcompat : (writeResult b r nd name cells v).nodes.map FdtNode.compatible
      = b.nodes.map FdtNode.compatible :=
    map_set_of_get? FdtNode.compatible b.nodes r.toNat
      ({ nd with props := setPropFirst nd.props name (encodeCells cells v) })
      (by rw [hget]; rfl)
  have hhdr : (writeResult b r nd name cells v).headerOk = b.headerOk := rfl
  unfold arm_dyn_tb_fw_cfg_init fdt_check_header fdt_node_offset_by_compatible
  rw [findCompatFrom_congr _ _ hcompat, hhdr]

theorem getNode_writeResult {b : Fdt} {r : Int} {nd : FdtNode}
    (name : String) (cells v : Nat) (hg : getNode b r = some nd) :
    getNode (writeResult b r nd name cells v) r =
      some { nd with props := setPropFirst nd.props name (encodeCells cells v) } :=
  getNode_set_self _ hg

theorem read_none_of_missing {b : Fdt} {r : Int} {name : String} {cells : Nat}
    {nd : FdtNode} (hg : getNode b r = some nd)
    (hf : findProp nd.props name = none) :
    fdtw_read_cells b r name cells = none := by
  simp [fdtw_read_cells, hg, hf]

theorem read_none_of_len {b : Fdt} {r : Int} {name : String} {cells : Nat}
    {nd : FdtNode} {p : FdtProp} (hg : getNode b r = some nd)
    (hf : findProp nd.props name = some p) (hl : p.cells.length ≠ cells) :
    fdtw_read_cells b r name cells = none := by
  simp [fdtw_read_cells, hg, hf, hl]

theorem write_none_of_missing {b : Fdt} {r : Int} {name : String} {cells v : Nat}
    {nd : FdtNode} (hg : getNode b r = some nd)
    (hf : findProp nd.props name = none) :
    fdtw_write_inplace_cells b r name cells v = none := by
  simp [fdtw_write_inplace_cells, hg, hf]

theorem read_after_write {b b' : Fdt} {r : Int} {name : String} {cells v : Nat}
    (hw : fdtw_write_inplace_cells b r name cells v = some b')
    (hv : v < 2 ^ (32 * cells)) :
    fdtw_read_cells b' r name cells = some v := by
  obtain ⟨nd, p, hg, hf, hl, rfl⟩ := write_inv hw
  have hg' := getNode_writeResult name cells v hg
  have hf' := findProp_setPropFirst_self nd.props name (encodeCells cells v) p hf
  rw [read_eq_some hg' hf' (encodeCells_length cells v)]
  rw [decode_encode cells v hv]

theorem read_after_write_other {b b' : Fdt} {r : Int} {name name' : String}
    {cells cells' v : Nat}
    (hw : fdtw_write_inplace_cells b r name cells v = some b')
    (hne : name' ≠ name) :
    fdtw_read_cells b' r name' cells' = fdtw_read_cells b r name' cells' := by
  obtain ⟨nd, p, hg, hf, hl, rfl⟩ := write_inv hw
  have hg' := getNode_writeResult name cells v hg
  have hfp := findProp_setPropFirst_ne nd.props name name' (encodeCells cells v) hne
  simp only [fdtw_read_cells, hg', hg, hfp]

theorem reader_unfold_ok {b : Fdt} {r : Int} (addr0 size0 : Nat)
    (hv : arm_dyn_tb_fw_cfg_init b 0 = (0, r)) :
    arm_get_dtb_mbedtls_heap_info b addr0 size0 =
      match fdtw_read_cells b r "mbedtls_heap_addr" 2 with
      | none => (-1, addr0, size0)
      | some a =>
        match fdtw_read_cells b r "mbedtls_heap_size" 1 with
        | none => (-1, a, size0)
        | some s => (0, a, s) := by
  unfold arm_get_dtb_mbedtls_heap_info
  rw [hv]
  simp

theorem writer_unfold_ok {b : Fdt} {r : Int} (addr size : Nat)
    (hv : arm_dyn_tb_fw_cfg_init b 0 = (0, r)) :
    arm_set_dtb_mbedtls_heap_info b addr size =
      match fdtw_write_inplace_cells b r "mbedtls_heap_addr" 2 addr with
      | none => (-1, b)
      | some dtb1 =>
        match fdtw_write_inplace_cells dtb1 r "mbedtls_heap_size" 1 size with
        | none => (-1, dtb1)
        | some dtb2 => (0, dtb2) := by
  unfold arm_set_dtb_mbedtls_heap_info
  rw [hv]
  simp

/-! Claim theorems. -/

/-- C1 (counterexample): the two failure modes of `arm_dyn_tb_fw_cfg_init`
are NOT distinguishable from the returned status alone: a blob with a
malformed header and a header-valid blob lacking the `"arm,tb_fw"` node
both make the function return the same status -1. -/
theorem tb_fw_cfg_init_status_collision :
    (arm_dyn_tb_fw_cfg_init ⟨false, []⟩ 0).1 = -1 ∧
    (arm_dyn_tb_fw_cfg_init ⟨true, []⟩ 0).1 = -1 ∧
    (arm_dyn_tb_fw_cfg_init ⟨false, []⟩ 0).1 =
      (arm_dyn_tb_fw_cfg_init ⟨true, []⟩ 0).1 := by
  decide

/-- C1 (amended): `arm_dyn_tb_fw_cfg_init` fails (status -1) when the
header is malformed and fails (status -1) when the header is valid but no
`"arm,tb_fw"` node exists; both failure modes return the identical
status -1, so the caller cannot tell them apart from the returned status
alone (on the node-missing path the out-parameter, not the status, carries
the negative search result). -/
theorem tb_fw_cfg_init_failure_statuses (b : Fdt) (n0 : Int) :
    (fdt_check_header b ≠ 0 → arm_dyn_tb_fw_cfg_init b n0 = (-1, n0)) ∧
    (fdt_check_header b = 0 →
      fdt_node_offset_by_compatible b (-1) "arm,tb_fw" < 0 →
      arm_dyn_tb_fw_cfg_init b n0 =
        (-1, fdt_node_offset_by_compatible b (-1) "arm,tb_fw")) := by
  constructor
  · intro h
    simp [arm_dyn_tb_fw_cfg_init, h]
  · intro hh hn
    simp [arm_dyn_tb_fw_cfg_init, hh, hn]

/-- C1 (witness): the amended claim evaluated on two concrete blobs, one
with a corrupted header and one with a valid header but no matching node;
both return status -1. -/
theorem tb_fw_cfg_init_failure_statuses_witness :
    fdt_check_header (⟨false, []⟩ : Fdt) ≠ 0 ∧
    arm_dyn_tb_fw_cfg_init ⟨false, []⟩ 0 = (-1, 0) ∧
    fdt_check_header (⟨true, []⟩ : Fdt) = 0 ∧
    arm_dyn_tb_fw_cfg_init ⟨true, []⟩ 0 = (-1, -1) :=
  ⟨by decide,
   (tb_fw_cfg_init_failure_statuses ⟨false, []⟩ 0).1 (by decide),
   by decide,
   by
    have h := (tb_fw_cfg_init_failure_statuses ⟨true, []⟩ 0).2 (by decide) (by decide)
    simpa using h⟩

/-- C2: for every 32-bit value v stored in the `disable_auth` cell of the
validated node, `arm_dyn_get_disable_auth` succeeds with status 0 and
returns exactly v when v ∈ {0, 1}, and fails with status -1 (the domain
error) without coercing the value when v ∉ {0, 1}. -/
theorem disable_auth_domain_check (b : Fdt) (node : Int) (out0 v : Nat)
    (hh : fdt_check_header b = 0)
    (hn : node = fdt_node_offset_by_compatible b (-1) "arm,tb_fw")
    (hr : fdtw_read_cells b node "disable_auth" 1 = some v) :
    arm_dyn_get_disable_auth b node out0 =
      if v = 0 ∨ v = 1 then DbgResult.result 0 v else DbgResult.result (-1) v := by
  by_cases h01 : v = 0 ∨ v = 1
  · rw [if_pos h01]
    unfold arm_dyn_get_disable_auth
    rw [if_neg (by simp [hh]), if_neg (by simp [hn]), hr]
    have hc : ¬(v ≠ 0 ∧ v ≠ 1) := by tauto
    simp [hc]
  · rw [if_neg h01]
    unfold arm_dyn_get_disable_auth
    rw [if_neg (by simp [hh]), if_neg (by simp [hn]), hr]
    have hc : v ≠ 0 ∧ v ≠ 1 := by tauto
    simp [hc]

/-- C2 (witness): on `blobOk` (which stores `disable_auth = 1`) the
accessor succeeds with status 0 and returns exactly 1. -/
theorem disable_auth_domain_check_witness :
    fdt_check_header blobOk = 0 ∧
    (0 : Int) = fdt_node_offset_by_compatible blobOk (-1) "arm,tb_fw" ∧
    fdtw_read_cells blobOk 0 "disable_auth" 1 = some 1 ∧
    arm_dyn_get_disable_auth blobOk 0 99 =
      (if 1 = 0 ∨ 1 = 1 then DbgResult.result 0 1 else DbgResult.result (-1) 1) :=
  ⟨by decide, by decide, by decide,
   disable_auth_domain_check blobOk 0 99 1 (by decide) (by decide) (by decide)⟩

/-- C6: on a blob whose structural header is corrupted, the Blob Validator
returns status -1 and the node search is never invoked (the instrumented
copy, whose Boolean records whether `fdt_node_offset_by_compatible` ran,
reports `false`). -/
theorem validator_bad_header_no_search (b : Fdt) (n0 : Int)
    (h : fdt_check_header b ≠ 0) :
    arm_dyn_tb_fw_cfg_init_instr b n0 = ((-1, n0), false) ∧
    arm_dyn_tb_fw_cfg_init b n0 = (-1, n0) := by
  constructor
  · simp [arm_dyn_tb_fw_cfg_init_instr, h]
  · simp [arm_dyn_tb_fw_cfg_init, h]

/-- C6 (witness): the corrupted-header blob `⟨false, []⟩` makes the
validator fail with status -1 without running the node search. -/
theorem validator_bad_header_no_search_witness :
    fdt_check_header (⟨false, []⟩ : Fdt) ≠ 0 ∧
    (arm_dyn_tb_fw_cfg_init_instr ⟨false, []⟩ 3 = ((-1, 3), false) ∧
     arm_dyn_tb_fw_cfg_init ⟨false, []⟩ 3 = (-1, 3)) :=
  ⟨by decide, validator_bad_header_no_search ⟨false, []⟩ 3 (by decide)⟩

/-- C8: the accessor's debug assertion enforces that the supplied handle
equals the handle a fresh node search on the same blob would produce: a
stale or forged handle makes the call abort with an assertion violation,
while a handle freshly produced by the Validator never does. -/
theorem disable_auth_handle_assert (b : Fdt) (node r n0 : Int) (out0 : Nat) :
    (node ≠ fdt_node_offset_by_compatible b (-1) "arm,tb_fw" →
      arm_dyn_get_disable_auth b node out0 = DbgResult.assertViolation) ∧
    (arm_dyn_tb_fw_cfg_init b n0 = (0, r) →
      arm_dyn_get_disable_auth b r out0 ≠ DbgResult.assertViolation) := by
  constructor
  · intro hne
    unfold arm_dyn_get_disable_auth
    by_cases hh : fdt_check_header b ≠ 0
    · rw [if_pos hh]
    · rw [if_neg hh, if_pos hne]
  · intro hv
    obtain ⟨hh, hs, hr0⟩ := init_eq_ok hv
    unfold arm_dyn_get_disable_auth
    rw [if_neg (by simp [hh]), if_neg (by simp [hs])]
    cases fdtw_read_cells b r "disable_auth" 1 with
    | none => simp
    | some v =>
      by_cases h01 : v ≠ 0 ∧ v ≠ 1
      · simp [h01]
      · simp [h01]

/-- C8 (witness): on `blobOk` the stale handle 5 aborts via the assertion,
while the Validator-produced handle 0 does not. -/
theorem disable_auth_handle_assert_witness :
    (5 : Int) ≠ fdt_node_offset_by_compatible blobOk (-1) "arm,tb_fw" ∧
    arm_dyn_get_disable_auth blobOk 5 0 = DbgResult.assertViolation ∧
    arm_dyn_tb_fw_cfg_init blobOk 0 = (0, 0) ∧
    arm_dyn_get_disable_auth blobOk 0 0 ≠ DbgResult.assertViolation :=
  ⟨by decide,
   (disable_auth_handle_assert blobOk 5 0 0 0).1 (by decide),
   by decide,
   (disable_auth_handle_assert blobOk 5 0 0 0).2 (by decide)⟩

/-- C9: all four operations are deterministic: two runs on equal blob
contents with equal arguments return equal statuses, equal output values
and equal final blob states. -/
theorem operations_deterministic (b b' : Fdt) (node n0 : Int)
    (out0 a0 s0 a s : Nat) (h : b = b') :
    arm_dyn_tb_fw_cfg_init b n0 = arm_dyn_tb_fw_cfg_init b' n0 ∧
    arm_dyn_get_disable_auth b node out0 = arm_dyn_get_disable_auth b' node out0 ∧
    arm_get_dtb_mbedtls_heap_info b a0 s0 = arm_get_dtb_mbedtls_heap_info b' a0 s0 ∧
    arm_set_dtb_mbedtls_heap_info b a s = arm_set_dtb_mbedtls_heap_info b' a s := by
  subst h
  exact ⟨rfl, rfl, rfl, rfl⟩

/-- C9 (witness): determinism instantiated on the concrete blob `blobOk`. -/
theorem operations_deterministic_witness :
    blobOk = blobOk ∧
    (arm_dyn_tb_fw_cfg_init blobOk 0 = arm_dyn_tb_fw_cfg_init blobOk 0 ∧
     arm_dyn_get_disable_auth blobOk 0 0 = arm_dyn_get_disable_auth blobOk 0 0 ∧
     arm_get_dtb_mbedtls_heap_info blobOk 0 0 = arm_get_dtb_mbedtls_heap_info blobOk 0 0 ∧
     arm_set_dtb_mbedtls_heap_info blobOk 1 2 = arm_set_dtb_mbedtls_heap_info blobOk 1 2) :=
  ⟨rfl, operations_deterministic blobOk blobOk 0 0 0 0 0 1 2 rfl⟩

/-- C10: when the stored `disable_auth` value v lies outside {0, 1}, the
accessor fails with status -1 AND the out-parameter has already been
overwritten with the invalid value v (its entry value `out0` is gone). -/
theorem disable_auth_out_overwritten (b : Fdt) (node : Int) (out0 v : Nat)
    (hh : fdt_check_header b = 0)
    (hn : node = fdt_node_offset_by_compatible b (-1) "arm,tb_fw")
    (hr : fdtw_read_cells b node "disable_auth" 1 = some v)
    (hv : v ≠ 0 ∧ v ≠ 1) :
    arm_dyn_get_disable_auth b node out0 = DbgResult.result (-1) v := by
  unfold arm_dyn_get_disable_auth
  rw [if_neg (by simp [hh]), if_neg (by simp [hn]), hr]
  simp [hv]

/-- C10 (witness): on `blobBadAuth` (which stores `disable_auth = 5`) the
out-parameter, entering as 77, leaves as the invalid value 5 together with
the error status. -/
theorem disable_auth_out_overwritten_witness :
    fdt_check_header blobBadAuth = 0 ∧
    (0 : Int) = fdt_node_offset_by_compatible blobBadAuth (-1) "arm,tb_fw" ∧
    fdtw_read_cells blobBadAuth 0 "disable_auth" 1 = some 5 ∧
    ((5 : Nat) ≠ 0 ∧ (5 : Nat) ≠ 1) ∧
    arm_dyn_get_disable_auth blobBadAuth 0 77 = DbgResult.result (-1) 5 :=
  ⟨by decide, by decide, by decide, by decide,
   disable_auth_out_overwritten blobBadAuth 0 77 5 (by decide) (by decide) (by decide)
     (by decide)⟩

/-- C5: when `mbedtls_heap_addr` or `mbedtls_heap_size` is missing from
the validated root node, or present but shorter than its required cell
count (2 resp. 1), the Heap Reader returns the error status -1 — it never
reports success with only one of the two outputs populated. -/
theorem heap_reader_all_or_nothing (b : Fdt) (r : Int) (nd : FdtNode)
    (addr0 size0 : Nat)
    (hv : arm_dyn_tb_fw_cfg_init b 0 = (0, r))
    (hg : getNode b r = some nd)
    (hmiss :
      findProp nd.props "mbedtls_heap_addr" = none ∨
      (∃ p, findProp nd.props "mbedtls_heap_addr" = some p ∧ p.cells.length < 2) ∨
      findProp nd.props "mbedtls_heap_size" = none ∨
      (∃ p, findProp nd.props "mbedtls_heap_size" = some p ∧ p.cells.length < 1)) :
    (arm_get_dtb_mbedtls_heap_info b addr0 size0).1 = -1 := by
  rw [reader_unfold_ok addr0 size0 hv]
  rcases hmiss with h | ⟨p, hp, hl⟩ | h | ⟨p, hp, hl⟩
  · rw [read_none_of_missing hg h]
  · rw [read_none_of_len hg hp (by omega)]
  · cases ha : fdtw_read_cells b r "mbedtls_heap_addr" 2 with
    | none => rfl
    | some a => rw [read_none_of_missing hg h]
  · cases ha : fdtw_read_cells b r "mbedtls_heap_addr" 2 with
    | none => rfl
    | some a => rw [read_none_of_len hg hp (by omega)]

/-- C5 (witness): a blob missing `mbedtls_heap_addr` makes the Heap Reader
fail with status -1. -/
theorem heap_reader_all_or_nothing_witness :
    arm_dyn_tb_fw_cfg_init blobNoAddr 0 = (0, 0) ∧
    getNode blobNoAddr 0 = some blobNoAddrNode ∧
    findProp blobNoAddrNode.props "mbedtls_heap_addr" = none ∧
    (arm_get_dtb_mbedtls_heap_info blobNoAddr 3 4).1 = -1 :=
  ⟨by decide, by decide, by decide,
   heap_reader_all_or_nothing blobNoAddr 0 blobNoAddrNode 3 4 (by decide) (by decide)
     (Or.inl (by decide))⟩

/-- C4: when the heap-address write succeeds (yielding blob state `b1`)
and the heap-size write then fails, the Heap Writer returns the error
status with the blob left exactly at `b1`: the new address value is
committed (reading it back yields `addr`), the size property is untouched
(reading it yields what the original blob held), and no rollback of the
address write happens. -/
theorem heap_writer_partial_failure (b b1 : Fdt) (r : Int) (addr size : Nat)
    (hv : arm_dyn_tb_fw_cfg_init b 0 = (0, r))
    (hw1 : fdtw_write_inplace_cells b r "mbedtls_heap_addr" 2 addr = some b1)
    (hw2 : fdtw_write_inplace_cells b1 r "mbedtls_heap_size" 1 size = none)
    (haddr : addr < 2 ^ 64) :
    arm_set_dtb_mbedtls_heap_info b addr size = (-1, b1) ∧
    fdtw_read_cells b1 r "mbedtls_heap_size" 1 =
      fdtw_read_cells b r "mbedtls_heap_size" 1 ∧
    fdtw_read_cells b1 r "mbedtls_heap_addr" 2 = some addr := by
  refine ⟨?_, ?_, ?_⟩
  · rw [writer_unfold_ok addr size hv]
    simp only [hw1, hw2]
  · exact read_after_write_other hw1 (by decide)
  · exact read_after_write hw1 (by simpa using haddr)

/-- C4 (witness): on `blobNoSize` the address write commits (yielding
`blobNoSizeW`), the size write fails, and the writer reports the error
with the address still committed and the size slot still absent. -/
theorem heap_writer_partial_failure_witness :
    arm_dyn_tb_fw_cfg_init blobNoSize 0 = (0, 0) ∧
    fdtw_write_inplace_cells blobNoSize 0 "mbedtls_heap_addr" 2 5 = some blobNoSizeW ∧
    fdtw_write_inplace_cells blobNoSizeW 0 "mbedtls_heap_size" 1 7 = none ∧
    (5 : Nat) < 2 ^ 64 ∧
    (arm_set_dtb_mbedtls_heap_info blobNoSize 5 7 = (-1, blobNoSizeW) ∧
     fdtw_read_cells blobNoSizeW 0 "mbedtls_heap_size" 1 =
       fdtw_read_cells blobNoSize 0 "mbedtls_heap_size" 1 ∧
     fdtw_read_cells blobNoSizeW 0 "mbedtls_heap_addr" 2 = some 5) :=
  ⟨by decide, by decide, by decide, by decide,
   heap_writer_partial_failure blobNoSize blobNoSizeW 0 5 7 (by decide) (by decide)
     (by decide) (by decide)⟩

/-- C7: on a blob whose validated root node lacks one of the two heap
property slots, the Heap Writer fails with the error status -1, never
grows or resizes the blob (the header flag, every node's compatibility
tags, and every property's name and cell width are preserved), and leaves
every property other than the two heap properties byte-identical. -/
theorem heap_writer_missing_slot (b : Fdt) (r : Int) (nd : FdtNode)
    (addr size : Nat)
    (hv : arm_dyn_tb_fw_cfg_init b 0 = (0, r))
    (hg : getNode b r = some nd)
    (hmiss : findProp nd.props "mbedtls_heap_addr" = none ∨
             findProp nd.props "mbedtls_heap_size" = none) :
    (arm_set_dtb_mbedtls_heap_info b addr size).1 = -1 ∧
    (arm_set_dtb_mbedtls_heap_info b addr size).2.headerOk = b.headerOk ∧
    (arm_set_dtb_mbedtls_heap_info b addr size).2.nodes.map FdtNode.compatible =
      b.nodes.map FdtNode.compatible ∧
    (arm_set_dtb_mbedtls_heap_info b addr size).2.nodes.map
        (fun n => n.props.map (fun q => (q.name, q.cells.length))) =
      b.nodes.map (fun n => n.props.map (fun q => (q.name, q.cells.length))) ∧
    (arm_set_dtb_mbedtls_heap_info b addr size).2.nodes.map
        (fun n => n.props.filter
          (fun q => !(q.name == "mbedtls_heap_addr") && !(q.name == "mbedtls_heap_size"))) =
      b.nodes.map
        (fun n => n.props.filter
          (fun q => !(q.name == "mbedtls_heap_addr") && !(q.name == "mbedtls_heap_size"))) := by
  rcases hmiss with h | h
  · have hset : arm_set_dtb_mbedtls_heap_info b addr size = (-1, b) := by
      rw [writer_unfold_ok addr size hv]
      simp only [write_none_of_missing hg h]
    rw [hset]
    exact ⟨rfl, rfl, rfl, rfl, rfl⟩
  · cases hw : fdtw_write_inplace_cells b r "mbedtls_heap_addr" 2 addr with
    | none =>
      have hset : arm_set_dtb_mbedtls_heap_info b addr size = (-1, b) := by
        rw [writer_unfold_ok addr size hv]
        simp only [hw]
      rw [hset]
      exact ⟨rfl, rfl, rfl, rfl, rfl⟩
    | some b1 =>
      obtain ⟨nd', p, hg', hf', hl', rfl⟩ := write_inv hw
      rw [hg] at hg'
      injection hg' with hnd
      subst hnd
      obtain ⟨hrpos, hget⟩ := getNode_inv hg
      have hfs : findProp
          (setPropFirst nd.props "mbedtls_heap_addr" (encodeCells 2 addr))
          "mbedtls_heap_size" = none := by
        rw [findProp_setPropFirst_ne _ _ _ _ (by decide)]
        exact h
      have hw2 : fdtw_write_inplace_cells
          (writeResult b r nd "mbedtls_heap_addr" 2 addr) r
          "mbedtls_heap_size" 1 size = none :=
        write_none_of_missing (getNode_writeResult _ _ _ hg) hfs
      have hset : arm_set_dtb_mbedtls_heap_info b addr size =
          (-1, writeResult b r nd "mbedtls_heap_addr" 2 addr) := by
        rw [writer_unfold_ok addr size hv]
        simp only [hw, hw2]
      have hcompat : (writeResult b r nd "mbedtls_heap_addr" 2 addr).nodes.map
          FdtNode.compatible = b.nodes.map FdtNode.compatible :=
        map_set_of_get? FdtNode.compatible b.nodes r.toNat
          ({ nd with props := setPropFirst nd.props "mbedtls_heap_addr" (encodeCells 2 addr) })
          (by rw [hget]; rfl)
      have hshape : (writeResult b r nd "mbedtls_heap_addr" 2 addr).nodes.map
          (fun n => n.props.map (fun q => (q.name, q.cells.length))) =
          b.nodes.map (fun n => n.props.map (fun q => (q.name, q.cells.length))) :=
        map_set_of_get? _ b.nodes r.toNat
          ({ nd with props := setPropFirst nd.props "mbedtls_heap_addr" (encodeCells 2 addr) })
          (by
            rw [hget]
            exact congrArg some
              (setPropFirst_map_shape nd.props "mbedtls_heap_addr" (encodeCells 2 addr) p
                hf' (by rw [encodeCells_length, hl'])).symm)
      have hfilter : (writeResult b r nd "mbedtls_heap_addr" 2 addr).nodes.map
          (fun n => n.props.filter
            (fun q => !(q.name == "mbedtls_heap_addr") && !(q.name == "mbedtls_heap_size"))) =
          b.nodes.map (fun n => n.props.filter
            (fun q => !(q.name == "mbedtls_heap_addr") && !(q.name == "mbedtls_heap_size"))) :=
        map_set_of_get? _ b.nodes r.toNat
          ({ nd with props := setPropFirst nd.props "mbedtls_heap_addr" (encodeCells 2 addr) })
          (by
            rw [hget]
            exact congrArg some
              (setPropFirst_filter nd.props "mbedtls_heap_addr" (encodeCells 2 addr)
                (fun s => !(s == "mbedtls_heap_addr") && !(s == "mbedtls_heap_size"))
                (by decide)).symm)
      rw [hset]
      exact ⟨rfl, rfl, hcompat, hshape, hfilter⟩

/-- C7 (witness): writing to `blobNoSize` (whose schema lacks the
heap-size slot) fails with status -1. -/
theorem heap_writer_missing_slot_witness :
    arm_dyn_tb_fw_cfg_init blobNoSize 0 = (0, 0) ∧
    getNode blobNoSize 0 = some blobNoSizeNode ∧
    findProp blobNoSizeNode.props "mbedtls_heap_size" = none ∧
    (arm_set_dtb_mbedtls_heap_info blobNoSize 5 7).1 = -1 :=
  ⟨by decide, by decide, by decide,
   (heap_writer_missing_slot blobNoSize 0 blobNoSizeNode 5 7 (by decide) (by decide)
     (Or.inr (by decide))).1⟩

/-- C3: on a blob whose validated root node carries both heap properties
at their required cell widths, a successful write of the Heap Descriptor
(addr, size) followed by a read on the resulting (unmutated) blob returns
exactly (addr, size) — addr and size being within the 64-bit resp. 32-bit
semantic widths of the two properties. -/
theorem heap_info_roundtrip (b : Fdt) (r : Int) (nd : FdtNode) (pa ps : FdtProp)
    (addr size a0 s0 : Nat)
    (hv : arm_dyn_tb_fw_cfg_init b 0 = (0, r))
    (hg : getNode b r = some nd)
    (hpa : findProp nd.props "mbedtls_heap_addr" = some pa)
    (hla : pa.cells.length = 2)
    (hps : findProp nd.props "mbedtls_heap_size" = some ps)
    (hls : ps.cells.length = 1)
    (haddr : addr < 2 ^ 64) (hsize : size < 2 ^ 32) :
    (arm_set_dtb_mbedtls_heap_info b addr size).1 = 0 ∧
    arm_get_dtb_mbedtls_heap_info (arm_set_dtb_mbedtls_heap_info b addr size).2 a0 s0
      = (0, addr, size) := by
  have hw1 : fdtw_write_inplace_cells b r "mbedtls_heap_addr" 2 addr =
      some (writeResult b r nd "mbedtls_heap_addr" 2 addr) :=
    write_eq_some hg hpa hla
  have hg1 : getNode (writeResult b r nd "mbedtls_heap_addr" 2 addr) r =
      some { nd with
        props := setPropFirst nd.props "mbedtls_heap_addr" (encodeCells 2 addr) } :=
    getNode_writeResult _ _ _ hg
  have hfs1 : findProp
      (setPropFirst nd.props "mbedtls_heap_addr" (encodeCells 2 addr))
      "mbedtls_heap_size" = some ps := by
    rw [findProp_setPropFirst_ne _ _ _ _ (by decide)]
    exact hps
  have hw2 : fdtw_write_inplace_cells (writeResult b r nd "mbedtls_heap_addr" 2 addr) r
      "mbedtls_heap_size" 1 size =
      some (writeResult (writeResult b r nd "mbedtls_heap_addr" 2 addr) r
        { nd with
          props := setPropFirst nd.props "mbedtls_heap_addr" (encodeCells 2 addr) }
        "mbedtls_heap_size" 1 size) :=
    write_eq_some hg1 hfs1 hls
  have hset : arm_set_dtb_mbedtls_heap_info b addr size =
      (0, writeResult (writeResult b r nd "mbedtls_heap_addr" 2 addr) r
        { nd with
          props := setPropFirst nd.props "mbedtls_heap_addr" (encodeCells 2 addr) }
        "mbedtls_heap_size" 1 size) := by
    rw [writer_unfold_ok addr size hv]
    simp only [hw1, hw2]
  have hv2 : arm_dyn_tb_fw_cfg_init
      (writeResult (writeResult b r nd "mbedtls_heap_addr" 2 addr) r
        { nd with
          props := setPropFirst nd.props "mbedtls_heap_addr" (encodeCells 2 addr) }
        "mbedtls_heap_size" 1 size) 0 = (0, r) := by
    rw [init_after_write hw2 0, init_after_write hw1 0]
    exact hv
  have hra : fdtw_read_cells
      (writeResult (writeResult b r nd "mbedtls_heap_addr" 2 addr) r
        { nd with
          props := setPropFirst nd.props "mbedtls_heap_addr" (encodeCells 2 addr) }
        "mbedtls_heap_size" 1 size) r "mbedtls_heap_addr" 2 = some addr := by
    rw [read_after_write_other hw2 (by decide)]
    exact read_after_write hw1 (by simpa using haddr)
  have hrs : fdtw_read_cells
      (writeResult (writeResult b r nd "mbedtls_heap_addr" 2 addr) r
        { nd with
          props := setPropFirst nd.props "mbedtls_heap_addr" (encodeCells 2 addr) }
        "mbedtls_heap_size" 1 size) r "mbedtls_heap_size" 1 = some size :=
    read_after_write hw2 (by simpa using hsize)
  refine ⟨by rw [hset], ?_⟩
  rw [hset]
  rw [reader_unfold_ok a0 s0 hv2]
  simp only [hra, hrs]

/-- C3 (witness): on the full-schema blob `blobOk`, writing the Heap
Descriptor (0x80000000, 0x10000) and reading it back returns exactly
(0x80000000, 0x10000). -/
theorem heap_info_roundtrip_witness :
    arm_dyn_tb_fw_cfg_init blobOk 0 = (0, 0) ∧
    getNode blobOk 0 = some blobOkNode ∧
    findProp blobOkNode.props "mbedtls_heap_addr" = some ⟨"mbedtls_heap_addr", [0, 0]⟩ ∧
    findProp blobOkNode.props "mbedtls_heap_size" = some ⟨"mbedtls_heap_size", [0]⟩ ∧
    ((arm_set_dtb_mbedtls_heap_info blobOk 0x80000000 0x10000).1 = 0 ∧
     arm_get_dtb_mbedtls_heap_info
       (arm_set_dtb_mbedtls_heap_info blobOk 0x80000000 0x10000).2 0 0
       = (0, 0x80000000, 0x10000)) :=
  ⟨by decide, by decide, by decide, by decide,
   heap_info_roundtrip blobOk 0 blobOkNode ⟨"mbedtls_heap_addr", [0, 0]⟩
     ⟨"mbedtls_heap_size", [0]⟩ 0x80000000 0x10000 0 0
     (by decide) (by decide) (by decide) (by decide) (by decide) (by decide)
     (by decide) (by decide)⟩
